import Mathlib

/-!
Verification development for the modpack updater scripts
(`sync_modpack_mmc.py` and `update_mod.py`).

The Python code is shallowly embedded: strings are Lean `String`s
manipulated through their character lists, file contents are byte lists
(`List Nat`), directories are association lists from names/paths to data,
and every external capability the scripts consume (the HTTP transport,
the zip decoder, the JSON decoder) is an explicit function parameter.
Fallible Python code (exceptions) is embedded with `Except`/`Option`.
-/

/-! ## String helpers (models of the Python `str` / `pathlib` operations used) -/

/-- Model of Python `str.startswith(p)`. -/
def strStarts (p s : String) : Bool :=
  p.data.isPrefixOf s.data

/-- Model of Python `str.endswith(suf)`; used for the `*.jar` / `*.mrpack`
glob patterns, which on regular files match exactly the names with that
suffix. -/
def strEndsWith (suf s : String) : Bool :=
  suf.data.isSuffixOf s.data

/-- Helper for `strHasSub`: `needle` occurs in `hay` iff it is a prefix
of some suffix of `hay`. -/
def hasSubAux (needle : List Char) : List Char → Bool
  | [] => needle.isEmpty
  | c :: rest => needle.isPrefixOf (c :: rest) || hasSubAux needle rest

/-- Model of the Python substring test `needle in s`. -/
def strHasSub (needle s : String) : Bool :=
  hasSubAux needle.data s.data

/-- Model of Python `str.removeprefix(p)`: drops `p` when it is a prefix,
otherwise returns the string unchanged. -/
def stripPre (p s : String) : String :=
  if p.data.isPrefixOf s.data then ⟨s.data.drop p.data.length⟩ else s

/-- Helper for `basename`: keeps the characters seen since the last `/`. -/
def basenameAux : List Char → List Char → List Char
  | [], acc => acc
  | c :: rest, acc => if c = '/' then basenameAux rest [] else basenameAux rest (acc ++ [c])

/-- Model of `pathlib.PurePath(s).name` for slash-separated paths:
the final path component. -/
def basename (s : String) : String :=
  ⟨basenameAux s.data []⟩

/-- A path is absolute when it starts with the separator (POSIX model). -/
def isAbsPath (s : String) : Bool :=
  s.data.head? = some '/'

/-- Model of `pathlib`'s `/` operator: an absolute right operand replaces
the left one, otherwise the two are joined with a separator. -/
def pathJoin (a b : String) : String :=
  if isAbsPath b then b else if a = "" then b else a ++ "/" ++ b

/-! ## Dictionary / filesystem primitives

Python `dict`s keyed by strings (and directory listings, which map a
name to data) are embedded as association lists.  `lookupD` is `d.get`
(first matching key) and `upsert` is `d[k] = v` (replace the value at an
existing key in place, otherwise append at the end) -- for the key-unique
lists produced by the scripts these agree with Python `dict` semantics. -/

def lookupD {α : Type} : List (String × α) → String → Option α
  | [], _ => none
  | p :: rest, k => if p.1 = k then some p.2 else lookupD rest k

def upsert {α : Type} : List (String × α) → String → α → List (String × α)
  | [], k, v => [(k, v)]
  | p :: rest, k, v => if p.1 = k then (k, v) :: rest else p :: upsert rest k v

/-! ## Data model of the scripts -/

/-- One element of the manifest's `files` array:
`\x7b path, fileSize, downloads \x7d` (see `modrinth.index.json`). -/
structure FileEntry where
  path : String
  fileSize : Nat
  downloads : List String
deriving DecidableEq

/-- The parsed `modrinth.index.json` manifest (only the `files` key is
ever read by the scripts). -/
structure Manifest where
  files : List FileEntry
deriving DecidableEq

/-- An override file bundled in the archive: profile-relative path plus
raw bytes, as produced by `read_mrpack`. -/
structure OverrideEntry where
  path : String
  content : List Nat
deriving DecidableEq

/-- The value returned by `read_mrpack`: the parsed index (`none` models
the `[]` placeholder the Python code leaves when the index entry is
missing from the archive) and the extracted overrides. -/
structure MrpackData where
  index : Option Manifest
  overrides : List OverrideEntry
deriving DecidableEq

/-! ## Archive reader (`read_mrpack`, identical in both scripts) -/

/-- The override-extraction loop of `read_mrpack`: every zip entry whose
name starts with `overrides/` yields an `OverrideEntry` with that prefix
stripped from the path and the entry's raw bytes as content. -/
def overridesOf (archive : List (String × List Nat)) : List OverrideEntry :=
  archive.filterMap fun nc =>
    if strStarts "overrides/" nc.1 then some ⟨stripPre "overrides/" nc.1, nc.2⟩ else none

/-- `read_mrpack`: the archive is the list of zip entries (name, bytes);
`parse` embeds `json.load`, returning `none` when the bytes are not valid
JSON (in Python this raises `JSONDecodeError`, which propagates out of
`read_mrpack`).  When `modrinth.index.json` is absent the Python code
leaves the `[]` placeholder in the result and returns normally. -/
def read_mrpack (parse : List Nat → Option Manifest) (archive : List (String × List Nat)) :
    Except String MrpackData :=
  match lookupD archive "modrinth.index.json" with
  | none => .ok ⟨none, overridesOf archive⟩
  | some c =>
    match parse c with
    | none => .error "JSONDecodeError"
    | some m => .ok ⟨some m, overridesOf archive⟩

/-! ## Mod-set reconciler (`sync_mods_folder`, `sync_modpack_mmc.py`) -/

/-- The `expected` dict of `sync_mods_folder`: basename of each manifest
entry's path mapped to its `fileSize` (a later entry with the same
basename overwrites an earlier one, as in the Python dict comprehension). -/
def buildExpected (files : List FileEntry) : List (String × Nat) :=
  files.foldl (fun d f => upsert d (basename f.path) f.fileSize) []

/-- The `existing` dict of `sync_mods_folder`: the mods-directory listing
restricted by the `*.jar` glob, mapping each name to its on-disk size. -/
def existingOf (disk : List (String × Nat)) : List (String × Nat) :=
  disk.filter fun f => strEndsWith ".jar" f.1

/-- The `to_delete` list of `sync_mods_folder`: names present in
`existing` whose basename is not a key of `expected`. -/
def toDeleteList (files : List FileEntry) (disk : List (String × Nat)) : List String :=
  ((existingOf disk).map Prod.fst).filter fun n =>
    decide (lookupD (buildExpected files) n = none)

/-- The `to_download` list of `sync_mods_folder`: keys of `expected`
whose name is absent from `existing` or whose on-disk size differs. -/
def toDownloadNames (files : List FileEntry) (disk : List (String × Nat)) : List String :=
  ((buildExpected files).filter fun p =>
    decide (lookupD (existingOf disk) p.1 ≠ some p.2)).map Prod.fst

/-- The outcome of `sync_mods_folder`: the deleted names, the manifest
entries returned for download, and the mods-directory listing after the
deletion loop (`path.unlink` for each name in `to_delete`). -/
structure SyncResult where
  toDelete : List String
  toDownload : List FileEntry
  newDisk : List (String × Nat)
deriving DecidableEq

/-- `sync_mods_folder`, acting on the mods-directory listing
(name, size): builds `expected` and `existing`, computes the stale and
missing/mismatched sets, deletes the stale names from disk and returns
the manifest entries whose basename is in `to_download`. -/
def sync_mods_folder (files : List FileEntry) (disk : List (String × Nat)) : SyncResult :=
  { toDelete := toDeleteList files disk
    toDownload := files.filter fun f =>
      decide (basename f.path ∈ toDownloadNames files disk)
    newDisk := disk.filter fun f => decide (f.1 ∉ toDeleteList files disk) }

/-! ## Parallel downloader (`download_mod`, identical in both scripts) -/

/-- Per-file outcome of `download_mod` (the Python code returns a
formatted message string for each case). -/
inductive Outcome
  | alreadyCurrent
  | updated
  | failed
deriving DecidableEq

/-- `download_mod`: `net` embeds `requests.get` (`none` = any request
failure, including non-2xx via `raise_for_status`, which the Python code
catches and reports).  The filesystem is a path-to-bytes association
list; the third component counts HTTP requests issued.  Accessing
`file["downloads"][0]` happens before the skip check, so an entry with
no download URL raises `IndexError` out of the function. -/
def download_mod (net : String → Option (List Nat)) (base : String) (file : FileEntry)
    (fs : List (String × List Nat)) :
    Except String (Outcome × List (String × List Nat) × Nat) :=
  match file.downloads with
  | [] => .error "IndexError"
  | url :: _ =>
    match lookupD fs (pathJoin base file.path) with
    | some content =>
      if content.length = file.fileSize then
        .ok (.alreadyCurrent, fs, 0)
      else
        match net url with
        | some body => .ok (.updated, upsert fs (pathJoin base file.path) body, 1)
        | none => .ok (.failed, fs, 1)
    | none =>
      match net url with
      | some body => .ok (.updated, upsert fs (pathJoin base file.path) body, 1)
      | none => .ok (.failed, fs, 1)

/-! ## Cache helpers -/

/-- `has_last_modpack_version`: the modpacks directory is `none` when it
does not exist, otherwise the list of file names in it.  True iff some
`*.mrpack` name contains the latest version's filename as a substring. -/
def has_last_modpack_version (modpacks : Option (List String)) (last_version : String) : Bool :=
  match modpacks with
  | none => false
  | some names => names.any fun n => strEndsWith ".mrpack" n && strHasSub last_version n

/-- Python `max(files, key=mtime)`: keeps the first element whose
modification time is maximal (later elements replace only on strictly
greater mtime). -/
def maxByMtime (x : String × Nat) (xs : List (String × Nat)) : String × Nat :=
  xs.foldl (fun best e => if best.2 < e.2 then e else best) x

/-- `get_last_modpack_version`: `folder` is the `MODPACKS_FOLDER` path,
`dir` its listing as (name, mtime) pairs (`none` = directory absent).
The glob produces folder-joined paths; note the Python code then returns
`MODPACKS_FOLDER / latest_mrpack`, joining the folder path a second
time onto the already-joined glob result. -/
def get_last_modpack_version (folder : String) (dir : Option (List (String × Nat))) :
    Option String :=
  match dir with
  | none => none
  | some entries =>
    match (entries.filter fun e => strEndsWith ".mrpack" e.1).map
        (fun e => (pathJoin folder e.1, e.2)) with
    | [] => none
    | x :: xs => some (pathJoin folder (maxByMtime x xs).1)

/-! ## Orchestrator (`main` of `sync_modpack_mmc.py`) -/

/-- One element of the version list's `files` array (only `filename` and
`url` are read). -/
structure VFile where
  filename : String
  url : String
deriving DecidableEq

/-- One element of the JSON array returned by the version API. -/
structure Version where
  files : List VFile
deriving DecidableEq

/-- The external capabilities `main` consumes: the result of the initial
version fetch (`none` = non-2xx status, in which case
`fetch_modpack_versions` prints and returns `None`), the HTTP transport
for file downloads, the zip decoder and the JSON decoder. -/
structure Env where
  versions : Option (List Version)
  fetch : String → Option (List Nat)
  unzip : List Nat → Option (List (String × List Nat))
  parse : List Nat → Option Manifest

/-- The mutable state `main` touches: the profile filesystem
(profile-root-relative path to bytes) and the modpacks cache directory
listing (`none` = directory absent). -/
structure World where
  fs : List (String × List Nat)
  modpacks : Option (List String)
deriving DecidableEq

/-- Result of one `main` invocation: the uncaught exception if any, the
final world, and the number of HTTP requests issued after the initial
version fetch. -/
structure RunResult where
  err : Option String
  world : World
  requests : Nat
deriving DecidableEq

/-- The direct children of the `mods` directory in the profile
filesystem, as the (name, size) listing `sync_mods_folder` globs. -/
def dirListingMods (fs : List (String × List Nat)) : List (String × Nat) :=
  fs.filterMap fun pc =>
    if strStarts "mods/" pc.1 then
      let rest := stripPre "mods/" pc.1
      if rest ≠ "" ∧ ¬ rest.data.contains '/' then some (rest, pc.2.length) else none
    else none

/-- The deletion loop of `sync_mods_folder` acting on the profile
filesystem: unlink `mods/<name>` for every stale name. -/
def applyDeletes (toDel : List String) (fs : List (String × List Nat)) :
    List (String × List Nat) :=
  fs.filter fun pc => decide (¬ ∃ n ∈ toDel, pc.1 = "mods/" ++ n)

/-- The download stage of `main`: the worker pool is determinised as a
left fold over the submission order (each task writes a distinct path).
A task raising (`IndexError`) is recorded as the run's uncaught
exception but the remaining submitted tasks still execute, as with
`as_completed` over a `ThreadPoolExecutor`. -/
def runDownloads (net : String → Option (List Nat)) (files : List FileEntry)
    (fs : List (String × List Nat)) :
    Option String × List (String × List Nat) × Nat :=
  files.foldl
    (fun acc file =>
      match download_mod net "" file acc.2.1 with
      | .error e => (acc.1 <|> some e, acc.2.1, acc.2.2)
      | .ok (_, fs2, n) => (acc.1, fs2, acc.2.2 + n))
    (none, fs, 0)

/-- The override loop of `main`: write each entry's bytes to its
profile-relative path, creating parents as needed and overwriting
unconditionally. -/
def applyOverride (fs : List (String × List Nat)) (o : OverrideEntry) :
    List (String × List Nat) :=
  upsert fs o.path o.content

/-- `shutil.move` of the downloaded archive into the modpacks folder
(created with `mkdir(parents=True, exist_ok=True)` first). -/
def cacheInsert (m : Option (List String)) (name : String) : Option (List String) :=
  let l := m.getD []
  some (if name ∈ l then l else l ++ [name])

/-- `main` of `sync_modpack_mmc.py`, with the profile root as the empty
base path.  Failure strings name the Python exception that would escape
at that point: a failed archive download leaves no file for
`zipfile.ZipFile` to open (`FileNotFoundError`); invalid zip bytes raise
`BadZipFile`; an unparsable index raises `JSONDecodeError` inside
`read_mrpack`; a missing index leaves the `[]` placeholder so that
`data["modrinth.index.json"]["files"]` raises `TypeError`. -/
def runMain (env : Env) (w : World) : RunResult :=
  match env.versions with
  | none => ⟨none, w, 0⟩
  | some [] => ⟨none, w, 0⟩
  | some (v :: _) =>
    match v.files with
    | [] => ⟨some "IndexError", w, 0⟩
    | vf :: _ =>
      if has_last_modpack_version w.modpacks vf.filename then ⟨none, w, 0⟩
      else
        match env.fetch vf.url with
        | none => ⟨some "FileNotFoundError", w, 1⟩
        | some bytes =>
          match env.unzip bytes with
          | none => ⟨some "BadZipFile", w, 1⟩
          | some archive =>
            match read_mrpack env.parse archive with
            | .error e => ⟨some e, w, 1⟩
            | .ok data =>
              match data.index with
              | none => ⟨some "TypeError", w, 1⟩
              | some manifest =>
                let sres := sync_mods_folder manifest.files (dirListingMods w.fs)
                let fs1 := applyDeletes sres.toDelete w.fs
                let dres := runDownloads env.fetch sres.toDownload fs1
                match dres.1 with
                | some e => ⟨some e, ⟨dres.2.1, w.modpacks⟩, 1 + dres.2.2⟩
                | none =>
                  let fs3 := data.overrides.foldl applyOverride dres.2.1
                  ⟨none, ⟨fs3, cacheInsert w.modpacks vf.filename⟩, 1 + dres.2.2⟩

/-! ## Concrete instances used by the spec's scenarios and by witnesses -/

/-- Scenario 1 manifest entry `a.jar` (100 bytes). -/
def entryA : FileEntry := ⟨"mods/a.jar", 100, ["u"]⟩

/-- Scenario 1 manifest entry `b.jar` (50 bytes). -/
def entryB : FileEntry := ⟨"mods/b.jar", 50, ["u"]⟩

/-- Scenario 1 manifest: expects `a.jar` (100) and `b.jar` (50). -/
def scen1Files : List FileEntry := [entryA, entryB]

/-- Scenario 1 disk: `a.jar` (100 bytes). -/
def scen1Disk : List (String × Nat) := [("a.jar", 100)]

/-- Scenario 2 manifest: expects only `a.jar` (100). -/
def scen2Files : List FileEntry := [entryA]

/-- Scenario 2 disk: `a.jar` (100 bytes) and `c.jar` (10 bytes). -/
def scen2Disk : List (String × Nat) := [("a.jar", 100), ("c.jar", 10)]

/-- A transport on which every request fails. -/
def netNone : String → Option (List Nat) := fun _ => none

/-- A JSON decoder that fails on every input. -/
def parseNone : List Nat → Option Manifest := fun _ => none

/-- A JSON decoder yielding an empty manifest on every input. -/
def parseEmpty : List Nat → Option Manifest := fun _ => some ⟨[]⟩

/-- A manifest entry whose destination file already has the right size
in `fsC2`. -/
def entryC2 : FileEntry := ⟨"mods/m.jar", 2, ["u2"]⟩

/-- A profile filesystem already holding `mods/m.jar` with 2 bytes. -/
def fsC2 : List (String × List Nat) := [("mods/m.jar", [4, 4])]

/-- An archive with no `modrinth.index.json` entry. -/
def archNoIndex : List (String × List Nat) := [("overrides/a.txt", [1, 2])]

/-- An environment whose archive decodes to `archNoIndex`. -/
def envC3 : Env :=
  { versions := some [⟨[⟨"p.mrpack", "u"⟩]⟩]
    fetch := fun _ => some [7]
    unzip := fun _ => some archNoIndex
    parse := parseNone }

/-- The empty profile world. -/
def wEmpty : World := ⟨[], none⟩

/-- A manifest entry whose download will fail. -/
def entryC4 : FileEntry := ⟨"mods/x.jar", 5, ["u4"]⟩

/-- A manifest containing only `entryC4`. -/
def filesC4 : List FileEntry := [entryC4]

/-- An archive with an index entry and one override. -/
def archC5 : List (String × List Nat) :=
  [("modrinth.index.json", [3]), ("overrides/c.txt", [9, 8])]

/-- The override extracted from `archC5`. -/
def oC5 : OverrideEntry := ⟨"c.txt", [9, 8]⟩

/-- The read result of `archC5` under `parseEmpty`. -/
def rC5 : MrpackData := ⟨some ⟨[]⟩, [oC5]⟩

/-- An environment whose version fetch failed (non-2xx status). -/
def envC6 : Env := { versions := none, fetch := netNone, unzip := fun _ => none, parse := parseNone }

/-- An archive holding a single override and no index. -/
def archC8 : List (String × List Nat) := [("overrides/d.cfg", [5])]

/-- The override extracted from `archC8`. -/
def oC8 : OverrideEntry := ⟨"d.cfg", [5]⟩

/-- The read result of `archC8`. -/
def rC8 : MrpackData := ⟨none, [oC8]⟩

/-- A manifest expecting one jar. -/
def filesC9 : List FileEntry := [⟨"mods/y.jar", 3, ["u"]⟩]

/-- A mods directory holding a non-jar file next to a jar. -/
def diskC9 : List (String × Nat) := [("readme.txt", 7), ("y.jar", 3)]

/-- A manifest expecting `z.jar` with 5 bytes. -/
def filesC10 : List FileEntry := [⟨"mods/z.jar", 5, ["u"]⟩]

/-- A mods directory holding `z.jar` with the wrong size (9 bytes). -/
def diskC10 : List (String × Nat) := [("z.jar", 9)]

/-! ## Lemmas about the dictionary primitives -/

theorem lookupD_upsert {α : Type} (d : List (String × α)) (k k' : String) (v : α) :
    lookupD (upsert d k v) k' = if k' = k then some v else lookupD d k' := by
  induction d with
  | nil =>
    by_cases h : k' = k
    · subst h; simp [upsert, lookupD]
    · simp [upsert, lookupD, h, Ne.symm h]
  | cons p rest ih =>
    by_cases hp : p.1 = k
    · by_cases h : k' = k
      · subst h; simp [upsert, hp, lookupD]
      · simp [upsert, hp, lookupD, h, Ne.symm h]
    · simp only [upsert, if_neg hp, lookupD]
      rw [ih]
      by_cases hq : p.1 = k'
      · have h : k' ≠ k := fun hh => hp (hq.trans hh)
        simp [hq, h]
      · simp [hq]

theorem lookupD_mem {α : Type} {d : List (String × α)} {k : String} {v : α}
    (h : lookupD d k = some v) : (k, v) ∈ d := by
  induction d with
  | nil => simp [lookupD] at h
  | cons p rest ih =>
    by_cases hp : p.1 = k
    · simp only [lookupD, if_pos hp, Option.some.injEq] at h
      have : p = (k, v) := by
        cases p
        simp only [Prod.mk.injEq]
        exact ⟨hp, h⟩
      simp [this]
    · simp only [lookupD, if_neg hp] at h
      exact List.mem_cons_of_mem _ (ih h)

theorem lookupD_eq_none_iff {α : Type} {d : List (String × α)} {k : String} :
    lookupD d k = none ↔ k ∉ d.map Prod.fst := by
  induction d with
  | nil => simp [lookupD]
  | cons p rest ih =>
    by_cases hp : p.1 = k
    · simp [lookupD, hp]
    · simp [lookupD, hp, ih, Ne.symm hp]

theorem keys_upsert {α : Type} (d : List (String × α)) (k : String) (v : α) :
    (upsert d k v).map Prod.fst =
      if k ∈ d.map Prod.fst then d.map Prod.fst else d.map Prod.fst ++ [k] := by
  induction d with
  | nil => simp [upsert]
  | cons p rest ih =>
    by_cases hp : p.1 = k
    · simp [upsert, hp]
    · simp only [upsert, if_neg hp, List.map_cons, ih]
      by_cases hmem : k ∈ rest.map Prod.fst
      · simp [hmem, hp, Ne.symm hp]
      · simp [hmem, hp, Ne.symm hp]

theorem keysNodup_upsert {α : Type} {d : List (String × α)} (h : (d.map Prod.fst).Nodup)
    (k : String) (v : α) : ((upsert d k v).map Prod.fst).Nodup := by
  rw [keys_upsert]
  by_cases hmem : k ∈ d.map Prod.fst
  · rw [if_pos hmem]
    exact h
  · rw [if_neg hmem]
    refine h.append (List.nodup_singleton k) ?_
    intro a ha hb
    rw [List.mem_singleton] at hb
    subst hb
    exact hmem ha

theorem lookupD_of_mem_keysNodup {α : Type} {d : List (String × α)}
    (hnd : (d.map Prod.fst).Nodup) {k : String} {v : α} (h : (k, v) ∈ d) :
    lookupD d k = some v := by
  induction d with
  | nil => simp at h
  | cons p rest ih =>
    rw [List.map_cons, List.nodup_cons] at hnd
    rcases List.mem_cons.mp h with h1 | h2
    · rw [← h1]
      simp [lookupD]
    · have hp : p.1 ≠ k := by
        intro hk
        exact hnd.1 (hk ▸ List.mem_map_of_mem Prod.fst h2)
      simp only [lookupD, if_neg hp]
      exact ih hnd.2 h2

/-! ## Lemmas about the reconciler's dictionaries -/

theorem keysNodup_buildExpected (files : List FileEntry) :
    ((buildExpected files).map Prod.fst).Nodup := by
  suffices h : ∀ d : List (String × Nat), (d.map Prod.fst).Nodup →
      ((files.foldl (fun d f => upsert d (basename f.path) f.fileSize) d).map Prod.fst).Nodup by
    exact h [] (by simp)
  induction files with
  | nil => intro d hd; simpa using hd
  | cons f rest ih =>
    intro d hd
    exact ih _ (keysNodup_upsert hd _ _)

theorem lookupD_buildExpected_isSome {files : List FileEntry} {b : String} :
    (lookupD (buildExpected files) b).isSome ↔ ∃ e ∈ files, basename e.path = b := by
  suffices h : ∀ d : List (String × Nat),
      (lookupD (files.foldl (fun d f => upsert d (basename f.path) f.fileSize) d) b).isSome ↔
        ((lookupD d b).isSome ∨ ∃ e ∈ files, basename e.path = b) by
    simpa [lookupD] using h []
  induction files with
  | nil => intro d; simp
  | cons f rest ih =>
    intro d
    rw [List.foldl_cons, ih, lookupD_upsert]
    by_cases hb : b = basename f.path
    · simp [hb]
    · simp only [if_neg hb, List.mem_cons]
      constructor
      · rintro (hs | ⟨e, he, hbe⟩)
        · exact Or.inl hs
        · exact Or.inr ⟨e, Or.inr he, hbe⟩
      · rintro (hs | ⟨e, he | he, hbe⟩)
        · exact Or.inl hs
        · exact absurd (he ▸ hbe).symm hb
        · exact Or.inr ⟨e, he, hbe⟩

theorem mem_toDeleteList {files : List FileEntry} {disk : List (String × Nat)} {n : String} :
    n ∈ toDeleteList files disk ↔
      (∃ sz, (n, sz) ∈ existingOf disk) ∧ lookupD (buildExpected files) n = none := by
  simp only [toDeleteList, List.mem_filter, List.mem_map, decide_eq_true_eq]
  constructor
  · rintro ⟨⟨p, hmem, rfl⟩, hnone⟩
    exact ⟨⟨p.2, hmem⟩, hnone⟩
  · rintro ⟨⟨sz, hmem⟩, hnone⟩
    exact ⟨⟨(n, sz), hmem, rfl⟩, hnone⟩

theorem mem_toDownloadNames {files : List FileEntry} {disk : List (String × Nat)} {b : String} :
    b ∈ toDownloadNames files disk ↔
      ∃ sz, (b, sz) ∈ buildExpected files ∧ lookupD (existingOf disk) b ≠ some sz := by
  simp only [toDownloadNames, List.mem_map, List.mem_filter, decide_eq_true_eq]
  constructor
  · rintro ⟨p, ⟨hmem, hne⟩, rfl⟩
    exact ⟨p.2, hmem, hne⟩
  · rintro ⟨sz, hmem, hne⟩
    exact ⟨(b, sz), ⟨hmem, hne⟩, rfl⟩

theorem mem_sync_toDownload {files : List FileEntry} {disk : List (String × Nat)}
    {e : FileEntry} :
    e ∈ (sync_mods_folder files disk).toDownload ↔
      (e ∈ files ∧
        lookupD (existingOf disk) (basename e.path) ≠
          lookupD (buildExpected files) (basename e.path)) := by
  simp only [sync_mods_folder, List.mem_filter, decide_eq_true_eq]
  constructor
  · rintro ⟨he, hmem⟩
    refine ⟨he, ?_⟩
    rcases mem_toDownloadNames.mp hmem with ⟨sz, hsz, hne⟩
    rw [lookupD_of_mem_keysNodup (keysNodup_buildExpected files) hsz]
    exact hne
  · rintro ⟨he, hne⟩
    refine ⟨he, mem_toDownloadNames.mpr ?_⟩
    have hsome : (lookupD (buildExpected files) (basename e.path)).isSome :=
      lookupD_buildExpected_isSome.mpr ⟨e, he, rfl⟩
    obtain ⟨sz, hsz⟩ := Option.isSome_iff_exists.mp hsome
    refine ⟨sz, lookupD_mem hsz, ?_⟩
    rw [hsz] at hne
    exact hne

theorem mem_sync_toDelete {files : List FileEntry} {disk : List (String × Nat)} {n : String} :
    n ∈ (sync_mods_folder files disk).toDelete ↔
      (∃ sz, (n, sz) ∈ existingOf disk) ∧ lookupD (buildExpected files) n = none :=
  mem_toDeleteList

theorem mem_sync_newDisk {files : List FileEntry} {disk : List (String × Nat)}
    {p : String × Nat} :
    p ∈ (sync_mods_folder files disk).newDisk ↔
      (p ∈ disk ∧ p.1 ∉ toDeleteList files disk) := by
  simp [sync_mods_folder, List.mem_filter]

theorem mem_toDeleteList_jar {files : List FileEntry} {disk : List (String × Nat)} {n : String}
    (h : n ∈ toDeleteList files disk) : strEndsWith ".jar" n = true := by
  rcases mem_toDeleteList.mp h with ⟨⟨sz, hmem⟩, _⟩
  exact (List.mem_filter.mp hmem).2

theorem lookupD_existingOf_eq_none {disk : List (String × Nat)} {n : String}
    (h : strEndsWith ".jar" n = false) : lookupD (existingOf disk) n = none := by
  rw [lookupD_eq_none_iff]
  intro hmem
  rcases List.mem_map.mp hmem with ⟨p, hp, rfl⟩
  have := (List.mem_filter.mp hp).2
  rw [h] at this
  exact Bool.false_ne_true this

/-! ## Lemmas about the string helpers and the archive reader -/

theorem strData_append (a b : String) : (a ++ b).data = a.data ++ b.data := rfl

theorem strExt {a b : String} (h : a.data = b.data) : a = b :=
  congrArg String.mk h

theorem strStarts_iff {p s : String} :
    strStarts p s = true ↔ ∃ t : List Char, s.data = p.data ++ t := by
  rw [strStarts, List.isPrefixOf_iff_prefix]
  constructor
  · rintro ⟨t, ht⟩
    exact ⟨t, ht.symm⟩
  · rintro ⟨t, ht⟩
    exact ⟨t, ht.symm⟩

theorem stripPre_of_append {p s : String} {t : List Char}
    (h : s.data = p.data ++ t) : stripPre p s = ⟨t⟩ := by
  have hpre : p.data.isPrefixOf s.data = true := by
    rw [List.isPrefixOf_iff_prefix]
    exact ⟨t, h.symm⟩
  rw [stripPre, if_pos hpre, h, List.drop_left]

theorem mem_overridesOf {archive : List (String × List Nat)} {o : OverrideEntry} :
    o ∈ overridesOf archive ↔ ("overrides/" ++ o.path, o.content) ∈ archive := by
  simp only [overridesOf, List.mem_filterMap]
  constructor
  · rintro ⟨⟨n, c⟩, hmem, hf⟩
    by_cases hs : strStarts "overrides/" n = true
    · rw [if_pos hs] at hf
      obtain ⟨t, ht⟩ := strStarts_iff.mp hs
      have hstrip : stripPre "overrides/" n = ⟨t⟩ := stripPre_of_append ht
      rw [Option.some.injEq] at hf
      subst hf
      have hn : ("overrides/" ++ (⟨t⟩ : String)) = n := by
        apply strExt
        rw [strData_append]
        exact ht.symm
      rw [hstrip, hn]
      exact hmem
    · rw [if_neg hs] at hf
      cases hf
  · intro hmem
    refine ⟨("overrides/" ++ o.path, o.content), hmem, ?_⟩
    have hs : strStarts "overrides/" ("overrides/" ++ o.path) = true := by
      rw [strStarts_iff]
      exact ⟨o.path.data, strData_append _ _⟩
    rw [if_pos hs]
    have hstrip : stripPre "overrides/" ("overrides/" ++ o.path) = o.path := by
      have h := @stripPre_of_append "overrides/" ("overrides/" ++ o.path) o.path.data
        (strData_append _ _)
      exact h
    rw [hstrip]

theorem read_mrpack_of_no_index {parse : List Nat → Option Manifest}
    {archive : List (String × List Nat)}
    (hl : lookupD archive "modrinth.index.json" = none) :
    read_mrpack parse archive = .ok ⟨none, overridesOf archive⟩ := by
  simp [read_mrpack, hl]

theorem read_mrpack_error_of_parse_none {parse : List Nat → Option Manifest}
    {archive : List (String × List Nat)} {c : List Nat}
    (hl : lookupD archive "modrinth.index.json" = some c) (hp : parse c = none) :
    read_mrpack parse archive = .error "JSONDecodeError" := by
  simp [read_mrpack, hl, hp]

theorem read_mrpack_ok_overrides {parse : List Nat → Option Manifest}
    {archive : List (String × List Nat)} {r : MrpackData}
    (h : read_mrpack parse archive = .ok r) : r.overrides = overridesOf archive := by
  cases hl : lookupD archive "modrinth.index.json" with
  | none =>
    rw [read_mrpack_of_no_index hl] at h
    injection h with h2
    rw [← h2]
  | some c =>
    cases hp : parse c with
    | none =>
      rw [read_mrpack_error_of_parse_none hl hp] at h
      cases h
    | some m =>
      simp only [read_mrpack, hl, hp] at h
      injection h with h2
      rw [← h2]

/-! ## Claim theorems -/

/-- Claim C1: for every manifest file list and every on-disk mods state,
`sync_mods_folder` returns exactly `toDelete` = the on-disk (jar) names
absent from the expected basename-to-size mapping built from the
manifest, and `toDownload` = the manifest entries whose basename is
absent from disk or whose on-disk size differs from the manifest size;
in particular the spec's two concrete reconciliation scenarios hold. -/
theorem C1_sync_reconciliation :
    (∀ (files : List FileEntry) (disk : List (String × Nat)),
      (∀ n : String, n ∈ (sync_mods_folder files disk).toDelete ↔
        ((∃ sz, (n, sz) ∈ existingOf disk) ∧ lookupD (buildExpected files) n = none)) ∧
      (∀ e : FileEntry, e ∈ (sync_mods_folder files disk).toDownload ↔
        (e ∈ files ∧
          lookupD (existingOf disk) (basename e.path) ≠
            lookupD (buildExpected files) (basename e.path)))) ∧
    (sync_mods_folder scen1Files scen1Disk).toDelete = [] ∧
    (sync_mods_folder scen1Files scen1Disk).toDownload = [entryB] ∧
    (sync_mods_folder scen2Files scen2Disk).toDelete = ["c.jar"] ∧
    (sync_mods_folder scen2Files scen2Disk).toDownload = [] := by
  refine ⟨fun files disk => ⟨fun n => mem_sync_toDelete, fun e => mem_sync_toDownload⟩,
    ?_, ?_, ?_, ?_⟩ <;> decide

/-- Witness for C1 at scenario 1: the characterization instantiated at
the entry `b.jar`. -/
theorem C1_sync_reconciliation_witness :
    entryB ∈ (sync_mods_folder scen1Files scen1Disk).toDownload ↔
      (entryB ∈ scen1Files ∧
        lookupD (existingOf scen1Disk) (basename entryB.path) ≠
          lookupD (buildExpected scen1Files) (basename entryB.path)) :=
  (C1_sync_reconciliation.1 scen1Files scen1Disk).2 entryB

/-- Claim C2: if the destination file exists with the expected size,
`download_mod` issues no request, performs no write and reports the file
as already current; re-running it is a no-op.  (The data-model invariant
that a `FileEntry` carries at least one download URL is assumed, since
the Python code reads `file["downloads"][0]` unconditionally.) -/
theorem C2_download_skip_current :
    ∀ (net : String → Option (List Nat)) (base : String) (file : FileEntry)
      (fs : List (String × List Nat)) (c : List Nat),
      file.downloads ≠ [] →
      lookupD fs (pathJoin base file.path) = some c →
      c.length = file.fileSize →
      download_mod net base file fs = .ok (.alreadyCurrent, fs, 0) := by
  intro net base file fs c hdl hlk hlen
  cases hd : file.downloads with
  | nil => exact absurd hd hdl
  | cons url rest => simp [download_mod, hd, hlk, hlen]

/-- Witness for C2: a file already present with matching size is skipped
even though every network request would fail. -/
theorem C2_download_skip_current_witness :
    download_mod netNone "" entryC2 fsC2 = .ok (.alreadyCurrent, fsC2, 0) :=
  C2_download_skip_current netNone "" entryC2 fsC2 [4, 4] (by decide) (by decide) (by decide)

/-- Claim C4: a failed download leaves the filesystem unchanged and is
reported as failed; and selection for download by the reconciler depends
only on the on-disk state at the entry's basename, so an entry selected
in one run whose on-disk state is unchanged is selected again by the
next run's reconciliation. -/
theorem C4_failed_download_retried :
    ∀ (net : String → Option (List Nat)) (base : String) (files : List FileEntry)
      (disk disk2 : List (String × Nat)) (e : FileEntry)
      (fs : List (String × List Nat)) (url : String) (rest : List String),
      e.downloads = url :: rest →
      net url = none →
      (∀ c, lookupD fs (pathJoin base e.path) = some c → c.length ≠ e.fileSize) →
      (download_mod net base e fs = .ok (.failed, fs, 1) ∧
        (e ∈ (sync_mods_folder files disk).toDownload →
          lookupD (existingOf disk2) (basename e.path) =
            lookupD (existingOf disk) (basename e.path) →
          e ∈ (sync_mods_folder files disk2).toDownload)) := by
  intro net base files disk disk2 e fs url rest hd hn hmis
  constructor
  · cases hlk : lookupD fs (pathJoin base e.path) with
    | none => simp [download_mod, hd, hlk, hn]
    | some c =>
      have hne := hmis c hlk
      simp [download_mod, hd, hlk, hne, hn]
  · intro hmem heq
    rcases mem_sync_toDownload.mp hmem with ⟨he, hne⟩
    refine mem_sync_toDownload.mpr ⟨he, ?_⟩
    rw [heq]
    exact hne

/-- Witness for C4: with an empty mods directory and a failing
transport, the single manifest entry fails and remains selected. -/
theorem C4_failed_download_retried_witness :
    download_mod netNone "" entryC4 [] = .ok (.failed, [], 1) ∧
      (entryC4 ∈ (sync_mods_folder filesC4 []).toDownload →
        lookupD (existingOf ([] : List (String × Nat))) (basename entryC4.path) =
          lookupD (existingOf ([] : List (String × Nat))) (basename entryC4.path) →
        entryC4 ∈ (sync_mods_folder filesC4 []).toDownload) :=
  C4_failed_download_retried netNone "" filesC4 [] [] entryC4 [] "u4" [] rfl rfl
    (by intro c h; simp [lookupD] at h)

/-- Claim C3 counterexample: on an archive with no `modrinth.index.json`
entry, `read_mrpack` does not fail -- it returns normally with the `[]`
placeholder index (the run only fails later, in `main`). -/
theorem C3_missing_index_counterexample :
    read_mrpack parseNone archNoIndex = .ok ⟨none, [⟨"a.txt", [1, 2]⟩]⟩ := rfl

/-- Claim C3 (amended): if the archive's index entry is present but not
valid JSON, `read_mrpack` itself fails (`JSONDecodeError`, the modelled
`MalformedArchiveError`); if the index entry is missing, `read_mrpack`
returns the `[]` placeholder and the orchestrator fails when reading its
`files` field (`TypeError`); in both cases the run aborts with the world
unchanged -- before any mod or override mutation -- having issued only
the archive-download request. -/
theorem C3_index_failure_amended :
    ∀ (env : Env) (w : World) (v : Version) (vs : List Version) (vf : VFile)
      (rest : List VFile) (bytes : List Nat) (archive : List (String × List Nat)),
      env.versions = some (v :: vs) →
      v.files = vf :: rest →
      has_last_modpack_version w.modpacks vf.filename = false →
      env.fetch vf.url = some bytes →
      env.unzip bytes = some archive →
      ((lookupD archive "modrinth.index.json" = none →
          read_mrpack env.parse archive = .ok ⟨none, overridesOf archive⟩ ∧
          runMain env w = ⟨some "TypeError", w, 1⟩) ∧
        (∀ c, lookupD archive "modrinth.index.json" = some c → env.parse c = none →
          read_mrpack env.parse archive = .error "JSONDecodeError" ∧
          runMain env w = ⟨some "JSONDecodeError", w, 1⟩)) := by
  intro env w v vs vf rest bytes archive hv hf hc hd hu
  constructor
  · intro hidx
    have hr := @read_mrpack_of_no_index env.parse archive hidx
    refine ⟨hr, ?_⟩
    simp [runMain, hv, hf, hc, hd, hu, hr]
  · intro c hidx hp
    have hr := read_mrpack_error_of_parse_none hidx hp
    refine ⟨hr, ?_⟩
    simp [runMain, hv, hf, hc, hd, hu, hr]

/-- Witness for C3 (amended): a concrete run whose archive lacks the
index aborts with `TypeError` and an unchanged world. -/
theorem C3_index_failure_amended_witness :
    read_mrpack envC3.parse archNoIndex = .ok ⟨none, overridesOf archNoIndex⟩ ∧
      runMain envC3 wEmpty = ⟨some "TypeError", wEmpty, 1⟩ :=
  (C3_index_failure_amended envC3 wEmpty ⟨[⟨"p.mrpack", "u"⟩]⟩ [] ⟨"p.mrpack", "u"⟩ [] [7]
    archNoIndex rfl rfl rfl rfl rfl).1 rfl

/-- Claim C5: whenever `read_mrpack` returns, the overrides it produced
are exactly the zip entries under the `overrides/` prefix, each with the
prefix stripped from its path and with the entry's raw bytes. -/
theorem C5_overrides_extraction :
    ∀ (parse : List Nat → Option Manifest) (archive : List (String × List Nat))
      (r : MrpackData),
      read_mrpack parse archive = .ok r →
      ∀ o : OverrideEntry, o ∈ r.overrides ↔ ("overrides/" ++ o.path, o.content) ∈ archive := by
  intro parse archive r h o
  rw [read_mrpack_ok_overrides h]
  exact mem_overridesOf

/-- Witness for C5: the override of `archC5` corresponds to its
`overrides/`-prefixed zip entry. -/
theorem C5_overrides_extraction_witness :
    oC5 ∈ rC5.overrides ↔ ("overrides/" ++ oC5.path, oC5.content) ∈ archC5 :=
  C5_overrides_extraction parseEmpty archC5 rC5 rfl oC5

/-- Claim C6: when the version fetch fails (non-2xx) or yields an empty
list, `main` returns immediately: no exception, no archive download, no
filesystem or cache change. -/
theorem C6_fetch_failure_noop :
    ∀ (env : Env) (w : World), (env.versions = none ∨ env.versions = some []) →
      runMain env w = ⟨none, w, 0⟩ := by
  intro env w h
  rcases h with h | h <;> simp [runMain, h]

/-- Witness for C6: a failed fetch leaves the empty world untouched. -/
theorem C6_fetch_failure_noop_witness :
    runMain envC6 wEmpty = ⟨none, wEmpty, 0⟩ :=
  C6_fetch_failure_noop envC6 wEmpty (Or.inl rfl)

/-- Claim C7 (code bug): with the repository's relative profile path,
`get_last_modpack_version` joins the cache-directory path onto the
already folder-joined glob result, so it returns a doubled path instead
of the most recently modified archive's path; the absent-directory and
no-archive cases do return none. -/
theorem C7_cache_double_join :
    get_last_modpack_version "mc/modpacks" (some [("a.mrpack", 1), ("b.mrpack", 5)]) =
      some "mc/modpacks/mc/modpacks/b.mrpack" ∧
    get_last_modpack_version "mc/modpacks" none = none ∧
    get_last_modpack_version "mc/modpacks" (some [("notes.txt", 3)]) = none := by
  exact ⟨rfl, rfl, rfl⟩

/-- Claim C8: an override entry extracted from an archive, once applied
(written to its destination path), reads back byte-identical to the
bytes stored in the archive entry. -/
theorem C8_override_roundtrip :
    ∀ (parse : List Nat → Option Manifest) (archive : List (String × List Nat))
      (r : MrpackData) (o : OverrideEntry) (fs : List (String × List Nat)),
      read_mrpack parse archive = .ok r →
      o ∈ r.overrides →
      (lookupD (applyOverride fs o) o.path = some o.content ∧
        ("overrides/" ++ o.path, o.content) ∈ archive) := by
  intro parse archive r o fs h hmem
  constructor
  · rw [applyOverride, lookupD_upsert]
    simp
  · rw [read_mrpack_ok_overrides h] at hmem
    exact mem_overridesOf.mp hmem

/-- Witness for C8: the override of `archC8` round-trips through an
empty filesystem. -/
theorem C8_override_roundtrip_witness :
    lookupD (applyOverride [] oC8) oC8.path = some oC8.content ∧
      ("overrides/" ++ oC8.path, oC8.content) ∈ archC8 :=
  C8_override_roundtrip parseNone archC8 rC8 oC8 [] rfl (by decide)

/-- Claim C9: a file in the mods directory whose name does not end in
`.jar` is never counted as present (manifest entries with its basename
are still selected for download), never enters `toDelete`, and survives
the deletion pass unchanged. -/
theorem C9_nonjar_untouched :
    ∀ (files : List FileEntry) (disk : List (String × Nat)) (n : String) (sz : Nat),
      (n, sz) ∈ disk →
      strEndsWith ".jar" n = false →
      (n ∉ (sync_mods_folder files disk).toDelete ∧
        (n, sz) ∈ (sync_mods_folder files disk).newDisk ∧
        ∀ e ∈ files, basename e.path = n → e ∈ (sync_mods_folder files disk).toDownload) := by
  intro files disk n sz hmem hjar
  have hdel : n ∉ toDeleteList files disk := by
    intro hd
    have h := mem_toDeleteList_jar hd
    rw [hjar] at h
    exact Bool.false_ne_true h
  refine ⟨hdel, mem_sync_newDisk.mpr ⟨hmem, hdel⟩, ?_⟩
  intro e he hbe
  refine mem_sync_toDownload.mpr ⟨he, ?_⟩
  rw [hbe, lookupD_existingOf_eq_none hjar]
  intro hcontra
  have hsome : (lookupD (buildExpected files) n).isSome :=
    lookupD_buildExpected_isSome.mpr ⟨e, he, hbe⟩
  rw [← hcontra] at hsome
  simp at hsome

/-- Witness for C9: `readme.txt` sits untouched in a mods directory. -/
theorem C9_nonjar_untouched_witness :
    "readme.txt" ∉ (sync_mods_folder filesC9 diskC9).toDelete ∧
      ("readme.txt", 7) ∈ (sync_mods_folder filesC9 diskC9).newDisk ∧
      ∀ e ∈ filesC9, basename e.path = "readme.txt" →
        e ∈ (sync_mods_folder filesC9 diskC9).toDownload :=
  C9_nonjar_untouched filesC9 diskC9 "readme.txt" 7 (by decide) (by decide)

/-- Claim C10: a disk file whose basename is a key of the manifest's
expected mapping is never deleted by reconciliation, even when its size
differs -- the mismatched name is selected for re-download instead. -/
theorem C10_expected_never_deleted :
    ∀ (files : List FileEntry) (disk : List (String × Nat)) (n : String) (sz v : Nat),
      (n, sz) ∈ disk →
      lookupD (buildExpected files) n = some v →
      (n ∉ (sync_mods_folder files disk).toDelete ∧
        (n, sz) ∈ (sync_mods_folder files disk).newDisk ∧
        (lookupD (existingOf disk) n ≠ some v →
          ∀ e ∈ files, basename e.path = n → e ∈ (sync_mods_folder files disk).toDownload)) := by
  intro files disk n sz v hmem hexp
  have hdel : n ∉ toDeleteList files disk := by
    intro hd
    rcases mem_toDeleteList.mp hd with ⟨_, hnone⟩
    rw [hexp] at hnone
    cases hnone
  refine ⟨hdel, mem_sync_newDisk.mpr ⟨hmem, hdel⟩, ?_⟩
  intro hne e he hbe
  refine mem_sync_toDownload.mpr ⟨he, ?_⟩
  rw [hbe, hexp]
  exact hne

/-- Witness for C10: `z.jar` with a wrong size is kept on disk and its
manifest entry selected for re-download. -/
theorem C10_expected_never_deleted_witness :
    "z.jar" ∉ (sync_mods_folder filesC10 diskC10).toDelete ∧
      ("z.jar", 9) ∈ (sync_mods_folder filesC10 diskC10).newDisk ∧
      (lookupD (existingOf diskC10) "z.jar" ≠ some 5 →
        ∀ e ∈ filesC10, basename e.path = "z.jar" →
          e ∈ (sync_mods_folder filesC10 diskC10).toDownload) :=
  C10_expected_never_deleted filesC10 diskC10 "z.jar" 9 5 (by decide) (by decide)
